import Mathlib

/-!
Shallow embedding of `src/fetchPRsGraphQL.js` (github-pr-analytics).

JavaScript numbers are modelled as exact rationals (`ℚ`); quantities that the
program only ever holds at integer values (line counts, epoch-millisecond
timestamps) are modelled as `ℤ`.  `Number.MAX_VALUE` is the largest finite
double, whose exact value is the integer `(2^53 - 1) * 2^971`.
`Number.prototype.toFixed(d)` followed by `parseFloat` is modelled as ideal
rounding to `d` decimal places, half away from zero towards `+∞` for ties
(the ECMAScript `toFixed` tie rule: of the two nearest candidates pick the
larger), i.e. `round (x * 10^d) / 10^d` with Mathlib's `round`.
Timestamps (`createdAt`, `mergedAt`) arrive as ISO strings and are consumed
only through `new Date(...)`; we model them pre-parsed as epoch milliseconds,
with `new Date(null)` giving the epoch (0) exactly as JavaScript does.
-/

/-- Exact integer value of `Number.MAX_VALUE`, the sentinel used to
initialise the two `min` trackers in `main`. -/
def NumberMAXVALUEZ : ℤ := (2 ^ 53 - 1) * 2 ^ 971

/-- `Number.MAX_VALUE` as a rational. -/
def NumberMAXVALUE : ℚ := (NumberMAXVALUEZ : ℚ)

/-- `parseFloat(x.toFixed(d))`: round to `d` decimal places (ties towards
`+∞`, matching `toFixed`). -/
def roundTo (d : ℕ) (x : ℚ) : ℚ := ((round (x * 10 ^ d) : ℤ) : ℚ) / 10 ^ d

/-- A pull-request node as returned by the paginated listing query:
`{ number title createdAt mergedAt state }`.  `mergedAt` may be `null`. -/
structure PullRequestSummary where
  number : ℕ
  title : String
  createdAt : ℤ
  mergedAt : Option ℤ
  state : String
deriving DecidableEq

/-- One element of the `edges` array; the query wraps each node in an edge. -/
structure Edge where
  node : PullRequestSummary
deriving DecidableEq

/-- The `pageInfo` block of a listing response. -/
structure PageInfo where
  hasNextPage : Bool
  endCursor : Option String
deriving DecidableEq

/-- One page of the paginated listing response:
`repository.pullRequests = { edges pageInfo }`. -/
structure Page where
  edges : List Edge
  pageInfo : PageInfo
deriving DecidableEq

/-- The detail query result: `{ additions deletions }` (GraphQL `Int`s). -/
structure PullRequestDetail where
  additions : ℤ
  deletions : ℤ
deriving DecidableEq

/-- The body of the `while (hasNextPage)` loop in `fetchAllPullRequests`,
against a fake endpoint that serves the given pages in order.  Each
iteration issues one request carrying the current cursor (recorded in the
second component), appends `edges.map(edge => edge.node)` to the output,
and continues with the page's `endCursor` exactly when its `hasNextPage`
is `true`. -/
def fetchPages (cursor : Option String) : List Page → List PullRequestSummary × List (Option String)
  | [] => ([], [])
  | page :: rest =>
    let nodes := page.edges.map Edge.node
    if page.pageInfo.hasNextPage then
      let next := fetchPages page.pageInfo.endCursor rest
      (nodes ++ next.1, cursor :: next.2)
    else
      (nodes, [cursor])

/-- `fetchAllPullRequests(owner, repo)` run against a fake paginated
endpoint: starts with `endCursor = null`, loops while `hasNextPage`.
Returns the concatenated nodes together with the list of cursors the loop
sent, one per issued request. -/
def fetchAllPullRequests (pages : List Page) : List PullRequestSummary × List (Option String) :=
  fetchPages none pages

/-- `new Date(x).getTime()` for a nullable timestamp: JavaScript coerces
`null` to `0` (the epoch). -/
def jsDateMs : Option ℤ → ℤ
  | none => 0
  | some t => t

/-- `calculateTimeDifferenceInMinutes(start, end)`:
`(new Date(end) - new Date(start)) / (1000 * 60)`.  `start` is the always
present `createdAt`; `end` is the nullable `mergedAt`. -/
def calculateTimeDifferenceInMinutes (start : ℤ) (endT : Option ℤ) : ℚ :=
  ((jsDateMs endT - start : ℤ) : ℚ) / (1000 * 60)

/-- `pullRequests.filter(pr => new Date(pr.mergedAt) >= since)`, with
`since` as epoch milliseconds. -/
def filterWindow (since : ℤ) (pullRequests : List PullRequestSummary) : List PullRequestSummary :=
  pullRequests.filter (fun pr => decide (since ≤ jsDateMs pr.mergedAt))

/-- One entry of the per-repository `prDetails` array. -/
structure PRDetailEntry where
  number : ℕ
  title : String
  timeToMerge : ℚ
  added : ℤ
  deleted : ℤ
deriving DecidableEq

/-- The mutable accumulators of the per-repository `for (const pr of
filteredPRs)` loop, plus the `prDetails` array the loop pushes into. -/
structure LoopAcc where
  totalMergeTime : ℚ
  maxMergeTime : ℚ
  minMergeTime : ℚ
  totalLinesChanged : ℤ
  maxLinesChanged : ℤ
  minLinesChanged : ℤ
  prDetails : List PRDetailEntry
deriving DecidableEq

/-- Initial accumulator state: totals and `max` trackers start at `0`, the
two `min` trackers start at `Number.MAX_VALUE`. -/
def initAcc : LoopAcc :=
  { totalMergeTime := 0
    maxMergeTime := 0
    minMergeTime := NumberMAXVALUE
    totalLinesChanged := 0
    maxLinesChanged := 0
    minLinesChanged := NumberMAXVALUEZ
    prDetails := [] }

/-- One iteration of the loop body: compute `timeToMerge`, fetch the detail
(`details` models `fetchPRDetails(owner, repo, pr.number)`), compute
`linesChanged = additions + deletions`, update the six accumulators and push
the `prDetails` entry. -/
def loopStep (details : ℕ → PullRequestDetail) (acc : LoopAcc) (pr : PullRequestSummary) : LoopAcc :=
  let timeToMerge := calculateTimeDifferenceInMinutes pr.createdAt pr.mergedAt
  let det := details pr.number
  let linesChanged := det.additions + det.deletions
  { totalMergeTime := acc.totalMergeTime + timeToMerge
    maxMergeTime := max acc.maxMergeTime timeToMerge
    minMergeTime := min acc.minMergeTime timeToMerge
    totalLinesChanged := acc.totalLinesChanged + linesChanged
    maxLinesChanged := max acc.maxLinesChanged linesChanged
    minLinesChanged := min acc.minLinesChanged linesChanged
    prDetails := acc.prDetails ++
      [{ number := pr.number
         title := pr.title
         timeToMerge := roundTo 2 timeToMerge
         added := det.additions
         deleted := det.deletions }] }

/-- The per-repository object pushed onto `results`. -/
structure RepositoryReport where
  Repository : String
  startDate : String
  endDate : String
  PRs : List PRDetailEntry
  averageTimeToMerge : ℚ
  minTimeToMerge : ℚ
  maxTimeToMerge : ℚ
  deviationMinFromAverage : ℚ
  deviationMaxFromAverage : ℚ
  averageLinesChanged : ℚ
  maxLinesChanged : ℤ
  minLinesChanged : ℤ
deriving DecidableEq

/-- The body of the `try` block of `main`'s repository loop, after the fetch:
filter by the window, run the accumulation loop, compute the two averages
(guarded to `0` on an empty set), and build the pushed report object with
the rounding (`toFixed(2)` / `toFixed(0)`) the source applies. -/
def buildReport (owner repo startDate endDate : String) (details : ℕ → PullRequestDetail)
    (since : ℤ) (pullRequests : List PullRequestSummary) : RepositoryReport :=
  let filteredPRs := filterWindow since pullRequests
  let a := List.foldl (loopStep details) initAcc filteredPRs
  let averageMergeTime : ℚ :=
    if filteredPRs.length > 0 then a.totalMergeTime / filteredPRs.length else 0
  let averageLinesChanged : ℚ :=
    if filteredPRs.length > 0 then (a.totalLinesChanged : ℚ) / filteredPRs.length else 0
  { Repository := owner ++ "/" ++ repo
    startDate := startDate
    endDate := endDate
    PRs := a.prDetails
    averageTimeToMerge := roundTo 2 averageMergeTime
    minTimeToMerge := roundTo 2 a.minMergeTime
    maxTimeToMerge := roundTo 2 a.maxMergeTime
    deviationMinFromAverage := roundTo 2 (averageMergeTime - a.minMergeTime)
    deviationMaxFromAverage := roundTo 2 (a.maxMergeTime - averageMergeTime)
    averageLinesChanged := roundTo 0 averageLinesChanged
    maxLinesChanged := a.maxLinesChanged
    minLinesChanged := a.minLinesChanged }

/-- One `{ owner, repo }` entry of the hardcoded repository list. -/
structure Repo where
  owner : String
  repo : String
deriving DecidableEq

/-- The hardcoded repository list of `main`. -/
def repositories : List Repo :=
  [{ owner := "SAP", repo := "terraform-exporter-btp" },
   { owner := "SAP", repo := "terraform-provider-btp" }]

/-- `main`'s `for (const { owner, repo } of repositories)` loop.  `fetch`
models `fetchAllPullRequests` at the network boundary (it may fail);
`details` models `fetchPRDetails` for each repository.  The whole body is
wrapped in `try`/`catch`: a failed repository is logged and skipped, the
loop continues, and each successful repository's report is pushed onto
`results` in loop order. -/
def processRepositories (fetch : Repo → Except String (List PullRequestSummary))
    (details : Repo → ℕ → PullRequestDetail) (since : ℤ)
    (startDate endDate : String) : List Repo → List RepositoryReport
  | [] => []
  | r :: rest =>
    match fetch r with
    | Except.ok prs =>
        buildReport r.owner r.repo startDate endDate (details r) since prs ::
          processRepositories fetch details since startDate endDate rest
    | Except.error _ => processRepositories fetch details since startDate endDate rest

/-- `true` exactly when the modelled fetch for a repository succeeds. -/
def fetchOk {ε α : Type} : Except ε α → Bool
  | Except.ok _ => true
  | Except.error _ => false

/-- The fixed `csvHeaders` array. -/
def csvHeaders : List String :=
  ["repository_name", "starttime", "endtime", "number_of_prs",
   "average_time_to_merge", "min_time_to_merge", "max_time_to_merge",
   "average_lines_changed", "min_lines_changed", "max_lines_Changed"]

/-- The ten cells of one CSV data row, in source order.  `render` models
JavaScript's number-to-string conversion for the rational-valued fields;
integer-valued fields print as plain decimal integers. -/
def csvCells (render : ℚ → String) (result : RepositoryReport) : List String :=
  [result.Repository, result.startDate, result.endDate,
   toString result.PRs.length,
   render result.averageTimeToMerge, render result.minTimeToMerge,
   render result.maxTimeToMerge, render result.averageLinesChanged,
   toString result.minLinesChanged, toString result.maxLinesChanged]

/-- One CSV data row: the cells joined with `,` (no quoting). -/
def csvRow (render : ℚ → String) (result : RepositoryReport) : String :=
  String.intercalate "," (csvCells render result)

/-- The lines of `output.csv`: the joined header row followed by one data
row per report; the file content is these lines joined with newlines. -/
def csvLines (render : ℚ → String) (results : List RepositoryReport) : List String :=
  String.intercalate "," csvHeaders :: results.map (csvRow render)

/-! ### Helper lemmas -/

/-- `round` is monotone on `ℚ`. -/
theorem round_q_mono {x y : ℚ} (h : x ≤ y) : round x ≤ round y := by
  rw [round_eq, round_eq]
  exact Int.floor_mono (by linarith)

/-- `roundTo` is monotone in its argument. -/
theorem roundTo_mono (d : ℕ) {x y : ℚ} (h : x ≤ y) : roundTo d x ≤ roundTo d y := by
  unfold roundTo
  have h10 : (0 : ℚ) < 10 ^ d := by positivity
  refine (div_le_div_iff_of_pos_right h10).mpr ?_
  exact_mod_cast round_q_mono (mul_le_mul_of_nonneg_right h h10.le)

/-- `roundTo` fixes integer values. -/
theorem roundTo_intCast (d : ℕ) (n : ℤ) : roundTo d (n : ℚ) = n := by
  unfold roundTo
  have h10 : (10 : ℚ) ^ d ≠ 0 := by positivity
  rw [show ((n : ℚ) * 10 ^ d) = ((n * 10 ^ d : ℤ) : ℚ) by push_cast; ring, round_intCast]
  push_cast
  field_simp

/-- `roundTo` fixes `0`. -/
theorem roundTo_zero (d : ℕ) : roundTo d 0 = 0 := by
  have := roundTo_intCast d 0
  simpa using this

/-- The seed is a lower bound of a `max`-fold. -/
theorem le_foldl_max {α : Type} [LinearOrder α] (l : List α) : ∀ a : α, a ≤ l.foldl max a := by
  induction l with
  | nil => intro a; exact le_refl a
  | cons x xs ih => intro a; exact le_trans (le_max_left a x) (ih (max a x))

/-- Every member is a lower bound of a `max`-fold. -/
theorem mem_le_foldl_max {α : Type} [LinearOrder α] {x : α} {l : List α} (hx : x ∈ l) :
    ∀ a : α, x ≤ l.foldl max a := by
  induction l with
  | nil => cases hx
  | cons y ys ih =>
    intro a
    rcases List.mem_cons.mp hx with h | h
    · subst h
      exact le_trans (le_max_right a x) (le_foldl_max ys (max a x))
    · exact ih h (max a y)

/-- The seed is an upper bound of a `min`-fold. -/
theorem foldl_min_le {α : Type} [LinearOrder α] (l : List α) : ∀ a : α, l.foldl min a ≤ a := by
  induction l with
  | nil => intro a; exact le_refl a
  | cons x xs ih => intro a; exact le_trans (ih (min a x)) (min_le_left a x)

/-- Every member is an upper bound of a `min`-fold. -/
theorem foldl_min_le_mem {α : Type} [LinearOrder α] {x : α} {l : List α} (hx : x ∈ l) :
    ∀ a : α, l.foldl min a ≤ x := by
  induction l with
  | nil => cases hx
  | cons y ys ih =>
    intro a
    rcases List.mem_cons.mp hx with h | h
    · subst h
      exact le_trans (foldl_min_le ys (min a x)) (min_le_right a x)
    · exact ih h (min a y)

/-- The `timeToMerge` value the loop computes for one pull request. -/
def timeOf (pr : PullRequestSummary) : ℚ :=
  calculateTimeDifferenceInMinutes pr.createdAt pr.mergedAt

/-- The `linesChanged` value the loop computes for one pull request. -/
def linesOf (details : ℕ → PullRequestDetail) (pr : PullRequestSummary) : ℤ :=
  (details pr.number).additions + (details pr.number).deletions

/-- The `prDetails` entry the loop pushes for one pull request. -/
def entryOf (details : ℕ → PullRequestDetail) (pr : PullRequestSummary) : PRDetailEntry :=
  { number := pr.number
    title := pr.title
    timeToMerge := roundTo 2 (timeOf pr)
    added := (details pr.number).additions
    deleted := (details pr.number).deletions }

/-- Closed form of the accumulation loop: the fold decomposes into a sum, a
`max`-fold and a `min`-fold per statistic, and an ordered `map` for
`prDetails`. -/
theorem foldl_loopStep (details : ℕ → PullRequestDetail) (prs : List PullRequestSummary) :
    ∀ a : LoopAcc,
      List.foldl (loopStep details) a prs =
        { totalMergeTime := a.totalMergeTime + (prs.map timeOf).sum
          maxMergeTime := (prs.map timeOf).foldl max a.maxMergeTime
          minMergeTime := (prs.map timeOf).foldl min a.minMergeTime
          totalLinesChanged := a.totalLinesChanged + (prs.map (linesOf details)).sum
          maxLinesChanged := (prs.map (linesOf details)).foldl max a.maxLinesChanged
          minLinesChanged := (prs.map (linesOf details)).foldl min a.minLinesChanged
          prDetails := a.prDetails ++ prs.map (entryOf details) } := by
  induction prs with
  | nil => intro a; simp
  | cons pr rest ih =>
    intro a
    rw [List.foldl_cons, ih (loopStep details a pr)]
    simp only [loopStep, List.map_cons, List.sum_cons, List.foldl_cons, LoopAcc.mk.injEq]
    refine ⟨by simp only [timeOf]; ring, rfl, rfl, by simp only [linesOf]; ring, rfl, rfl,
      by simp [entryOf, timeOf, linesOf]⟩

/-- A `min`-fold is at most the average of a non-empty rational list. -/
theorem minfold_le_avg (l : List ℚ) (a₀ : ℚ) (h : l ≠ []) :
    l.foldl min a₀ ≤ l.sum / l.length := by
  have hn : 0 < (l.length : ℚ) := by exact_mod_cast List.length_pos.mpr h
  rw [le_div_iff₀ hn]
  have h1 : l.length • l.foldl min a₀ ≤ l.sum :=
    l.card_nsmul_le_sum (l.foldl min a₀) (fun x hx => foldl_min_le_mem hx a₀)
  rw [nsmul_eq_mul] at h1
  linarith

/-- The average of a non-empty rational list is at most a `max`-fold. -/
theorem avg_le_maxfold (l : List ℚ) (a₀ : ℚ) (h : l ≠ []) :
    l.sum / l.length ≤ l.foldl max a₀ := by
  have hn : 0 < (l.length : ℚ) := by exact_mod_cast List.length_pos.mpr h
  rw [div_le_iff₀ hn]
  have h1 : l.sum ≤ l.length • l.foldl max a₀ :=
    l.sum_le_card_nsmul (l.foldl max a₀) (fun x hx => mem_le_foldl_max hx a₀)
  rw [nsmul_eq_mul] at h1
  linarith

/-- Integer version of `minfold_le_avg`, with the average taken in `ℚ`. -/
theorem minfoldZ_le_avg (l : List ℤ) (a₀ : ℤ) (h : l ≠ []) :
    ((l.foldl min a₀ : ℤ) : ℚ) ≤ (l.sum : ℚ) / l.length := by
  have hn : 0 < (l.length : ℚ) := by exact_mod_cast List.length_pos.mpr h
  rw [le_div_iff₀ hn]
  have h1 : l.length • l.foldl min a₀ ≤ l.sum :=
    l.card_nsmul_le_sum (l.foldl min a₀) (fun x hx => foldl_min_le_mem hx a₀)
  rw [nsmul_eq_mul] at h1
  have h2 : ((l.length : ℤ) : ℚ) * ((l.foldl min a₀ : ℤ) : ℚ) ≤ (l.sum : ℚ) := by
    exact_mod_cast h1
  push_cast at h2 ⊢
  linarith

/-- Integer version of `avg_le_maxfold`, with the average taken in `ℚ`. -/
theorem avgZ_le_maxfold (l : List ℤ) (a₀ : ℤ) (h : l ≠ []) :
    (l.sum : ℚ) / l.length ≤ ((l.foldl max a₀ : ℤ) : ℚ) := by
  have hn : 0 < (l.length : ℚ) := by exact_mod_cast List.length_pos.mpr h
  rw [div_le_iff₀ hn]
  have h1 : l.sum ≤ l.length • l.foldl max a₀ :=
    l.sum_le_card_nsmul (l.foldl max a₀) (fun x hx => mem_le_foldl_max hx a₀)
  rw [nsmul_eq_mul] at h1
  have h2 : (l.sum : ℚ) ≤ ((l.length : ℤ) : ℚ) * ((l.foldl max a₀ : ℤ) : ℚ) := by
    exact_mod_cast h1
  push_cast at h2 ⊢
  linarith

/-- Closed form of `buildReport` in terms of the per-item statistics of the
qualifying (window-filtered) pull requests. -/
theorem buildReport_eq (owner repo startDate endDate : String)
    (details : ℕ → PullRequestDetail) (since : ℤ) (prs : List PullRequestSummary) :
    buildReport owner repo startDate endDate details since prs =
      { Repository := owner ++ "/" ++ repo
        startDate := startDate
        endDate := endDate
        PRs := (filterWindow since prs).map (entryOf details)
        averageTimeToMerge := roundTo 2 (if (filterWindow since prs).length > 0 then
          ((filterWindow since prs).map timeOf).sum / (filterWindow since prs).length else 0)
        minTimeToMerge :=
          roundTo 2 (((filterWindow since prs).map timeOf).foldl min NumberMAXVALUE)
        maxTimeToMerge := roundTo 2 (((filterWindow since prs).map timeOf).foldl max 0)
        deviationMinFromAverage := roundTo 2 ((if (filterWindow since prs).length > 0 then
          ((filterWindow since prs).map timeOf).sum / (filterWindow since prs).length else 0) -
          ((filterWindow since prs).map timeOf).foldl min NumberMAXVALUE)
        deviationMaxFromAverage :=
          roundTo 2 (((filterWindow since prs).map timeOf).foldl max 0 -
          (if (filterWindow since prs).length > 0 then
            ((filterWindow since prs).map timeOf).sum / (filterWindow since prs).length else 0))
        averageLinesChanged := roundTo 0 (if (filterWindow since prs).length > 0 then
          (((filterWindow since prs).map (linesOf details)).sum : ℚ) /
            (filterWindow since prs).length else 0)
        maxLinesChanged := ((filterWindow since prs).map (linesOf details)).foldl max 0
        minLinesChanged :=
          ((filterWindow since prs).map (linesOf details)).foldl min NumberMAXVALUEZ } := by
  simp only [buildReport, foldl_loopStep, initAcc, zero_add, List.nil_append]

/-- `roundTo 2` fixes `Number.MAX_VALUE` (an integer-valued double). -/
theorem roundTo_MAXVALUE : roundTo 2 NumberMAXVALUE = NumberMAXVALUE := by
  rw [NumberMAXVALUE, roundTo_intCast]

/-- `roundTo 2` maps `0 - Number.MAX_VALUE` to `-Number.MAX_VALUE`. -/
theorem roundTo_neg_MAXVALUE : roundTo 2 (-NumberMAXVALUE) = -NumberMAXVALUE := by
  have h : (-NumberMAXVALUE : ℚ) = ((-NumberMAXVALUEZ : ℤ) : ℚ) := by
    unfold NumberMAXVALUE; push_cast; ring
  rw [h, roundTo_intCast]

/-! ### Claim theorems -/

/-- C3: for every non-empty qualifying (window-filtered) set of pull
requests with non-negative per-item values, the report satisfies
`min ≤ average ≤ max` both for time-to-merge and for lines-changed. -/
theorem report_min_le_avg_le_max (owner repo startDate endDate : String)
    (details : ℕ → PullRequestDetail) (since : ℤ) (prs : List PullRequestSummary)
    (hne : filterWindow since prs ≠ [])
    (htime : ∀ pr ∈ filterWindow since prs, 0 ≤ timeOf pr)
    (hlines : ∀ pr ∈ filterWindow since prs, 0 ≤ linesOf details pr) :
    (buildReport owner repo startDate endDate details since prs).minTimeToMerge ≤
        (buildReport owner repo startDate endDate details since prs).averageTimeToMerge ∧
      (buildReport owner repo startDate endDate details since prs).averageTimeToMerge ≤
        (buildReport owner repo startDate endDate details since prs).maxTimeToMerge ∧
      ((buildReport owner repo startDate endDate details since prs).minLinesChanged : ℚ) ≤
        (buildReport owner repo startDate endDate details since prs).averageLinesChanged ∧
      (buildReport owner repo startDate endDate details since prs).averageLinesChanged ≤
        ((buildReport owner repo startDate endDate details since prs).maxLinesChanged : ℚ) := by
  rw [buildReport_eq]
  dsimp only
  have hlen : 0 < (filterWindow since prs).length := List.length_pos.mpr hne
  have htne : (filterWindow since prs).map timeOf ≠ [] := by
    simpa using hne
  have hlne : (filterWindow since prs).map (linesOf details) ≠ [] := by
    simpa using hne
  rw [if_pos hlen, if_pos hlen]
  refine ⟨?_, ?_, ?_, ?_⟩
  · apply roundTo_mono
    have h := minfold_le_avg ((filterWindow since prs).map timeOf) NumberMAXVALUE htne
    rwa [List.length_map] at h
  · apply roundTo_mono
    have h := avg_le_maxfold ((filterWindow since prs).map timeOf) 0 htne
    rwa [List.length_map] at h
  · have h := minfoldZ_le_avg ((filterWindow since prs).map (linesOf details))
      NumberMAXVALUEZ hlne
    rw [List.length_map] at h
    calc (((((filterWindow since prs).map (linesOf details)).foldl min NumberMAXVALUEZ) : ℤ) : ℚ)
        = roundTo 0 (((((filterWindow since prs).map (linesOf details)).foldl min
            NumberMAXVALUEZ) : ℤ) : ℚ) := (roundTo_intCast 0 _).symm
      _ ≤ _ := roundTo_mono 0 h
  · have h := avgZ_le_maxfold ((filterWindow since prs).map (linesOf details)) 0 hlne
    rw [List.length_map] at h
    calc roundTo 0 ((((filterWindow since prs).map (linesOf details)).sum : ℚ) /
          (filterWindow since prs).length)
        ≤ roundTo 0 ((((filterWindow since prs).map (linesOf details)).foldl max 0 : ℤ) : ℚ) :=
          roundTo_mono 0 h
      _ = _ := roundTo_intCast 0 _

/-- A qualifying pull request used by concrete witnesses: merged 5 ms after
the epoch, created at the epoch. -/
def wPR : PullRequestSummary :=
  { number := 1, title := "pr-1", createdAt := 0, mergedAt := some 5, state := "MERGED" }

/-- A detail fetcher used by concrete witnesses: 1 addition, 2 deletions. -/
def wDetails : ℕ → PullRequestDetail := fun _ => { additions := 1, deletions := 2 }

/-- Witness for `report_min_le_avg_le_max` at a concrete one-element run. -/
theorem report_min_le_avg_le_max_witness :
    filterWindow 0 [wPR] ≠ [] ∧
      (∀ pr ∈ filterWindow 0 [wPR], 0 ≤ timeOf pr) ∧
      (∀ pr ∈ filterWindow 0 [wPR], 0 ≤ linesOf wDetails pr) ∧
      ((buildReport "SAP" "terraform-exporter-btp" "2025-10-04" "2025-10-11" wDetails 0
            [wPR]).minTimeToMerge ≤
          (buildReport "SAP" "terraform-exporter-btp" "2025-10-04" "2025-10-11" wDetails 0
            [wPR]).averageTimeToMerge ∧
        (buildReport "SAP" "terraform-exporter-btp" "2025-10-04" "2025-10-11" wDetails 0
            [wPR]).averageTimeToMerge ≤
          (buildReport "SAP" "terraform-exporter-btp" "2025-10-04" "2025-10-11" wDetails 0
            [wPR]).maxTimeToMerge ∧
        ((buildReport "SAP" "terraform-exporter-btp" "2025-10-04" "2025-10-11" wDetails 0
            [wPR]).minLinesChanged : ℚ) ≤
          (buildReport "SAP" "terraform-exporter-btp" "2025-10-04" "2025-10-11" wDetails 0
            [wPR]).averageLinesChanged ∧
        (buildReport "SAP" "terraform-exporter-btp" "2025-10-04" "2025-10-11" wDetails 0
            [wPR]).averageLinesChanged ≤
          ((buildReport "SAP" "terraform-exporter-btp" "2025-10-04" "2025-10-11" wDetails 0
            [wPR]).maxLinesChanged : ℚ)) := by
  have h1 : filterWindow 0 [wPR] ≠ [] := by
    simp [filterWindow, wPR, jsDateMs]
  have h2 : ∀ pr ∈ filterWindow 0 [wPR], 0 ≤ timeOf pr := by
    intro pr hpr
    simp only [filterWindow, wPR, jsDateMs, List.filter, decide_eq_true_eq] at hpr
    norm_num at hpr
    subst hpr
    norm_num [timeOf, calculateTimeDifferenceInMinutes, jsDateMs]
  have h3 : ∀ pr ∈ filterWindow 0 [wPR], 0 ≤ linesOf wDetails pr := by
    intro pr hpr
    norm_num [linesOf, wDetails]
  exact ⟨h1, h2, h3,
    report_min_le_avg_le_max "SAP" "terraform-exporter-btp" "2025-10-04" "2025-10-11"
      wDetails 0 [wPR] h1 h2 h3⟩

/-- C4: for every non-empty qualifying set, `deviationMinFromAverage` is
`round(average - min, 2)`, `deviationMaxFromAverage` is
`round(max - average, 2)` (average, min, max being the raw aggregates the
loop computes), and both are non-negative. -/
theorem report_deviations (owner repo startDate endDate : String)
    (details : ℕ → PullRequestDetail) (since : ℤ) (prs : List PullRequestSummary)
    (hne : filterWindow since prs ≠ []) :
    (buildReport owner repo startDate endDate details since prs).deviationMinFromAverage =
        roundTo 2 (((filterWindow since prs).map timeOf).sum / (filterWindow since prs).length -
          ((filterWindow since prs).map timeOf).foldl min NumberMAXVALUE) ∧
      (buildReport owner repo startDate endDate details since prs).deviationMaxFromAverage =
        roundTo 2 (((filterWindow since prs).map timeOf).foldl max 0 -
          ((filterWindow since prs).map timeOf).sum / (filterWindow since prs).length) ∧
      0 ≤ (buildReport owner repo startDate endDate details since prs).deviationMinFromAverage ∧
      0 ≤ (buildReport owner repo startDate endDate details since prs).deviationMaxFromAverage := by
  rw [buildReport_eq]
  dsimp only
  have hlen : 0 < (filterWindow since prs).length := List.length_pos.mpr hne
  have htne : (filterWindow since prs).map timeOf ≠ [] := by simpa using hne
  have hmin := minfold_le_avg ((filterWindow since prs).map timeOf) NumberMAXVALUE htne
  have hmax := avg_le_maxfold ((filterWindow since prs).map timeOf) 0 htne
  rw [List.length_map] at hmin hmax
  rw [if_pos hlen]
  refine ⟨rfl, rfl, ?_, ?_⟩
  · calc (0 : ℚ) = roundTo 2 0 := (roundTo_zero 2).symm
      _ ≤ _ := roundTo_mono 2 (by linarith)
  · calc (0 : ℚ) = roundTo 2 0 := (roundTo_zero 2).symm
      _ ≤ _ := roundTo_mono 2 (by linarith)

/-- Witness for `report_deviations` at a concrete one-element run. -/
theorem report_deviations_witness :
    filterWindow 0 [wPR] ≠ [] ∧
      ((buildReport "SAP" "terraform-provider-btp" "2025-10-04" "2025-10-11" wDetails 0
            [wPR]).deviationMinFromAverage =
          roundTo 2 (((filterWindow 0 [wPR]).map timeOf).sum / (filterWindow 0 [wPR]).length -
            ((filterWindow 0 [wPR]).map timeOf).foldl min NumberMAXVALUE) ∧
        (buildReport "SAP" "terraform-provider-btp" "2025-10-04" "2025-10-11" wDetails 0
            [wPR]).deviationMaxFromAverage =
          roundTo 2 (((filterWindow 0 [wPR]).map timeOf).foldl max 0 -
            ((filterWindow 0 [wPR]).map timeOf).sum / (filterWindow 0 [wPR]).length) ∧
        0 ≤ (buildReport "SAP" "terraform-provider-btp" "2025-10-04" "2025-10-11" wDetails 0
            [wPR]).deviationMinFromAverage ∧
        0 ≤ (buildReport "SAP" "terraform-provider-btp" "2025-10-04" "2025-10-11" wDetails 0
            [wPR]).deviationMaxFromAverage) := by
  have h1 : filterWindow 0 [wPR] ≠ [] := by
    simp [filterWindow, wPR, jsDateMs]
  exact ⟨h1, report_deviations "SAP" "terraform-provider-btp" "2025-10-04" "2025-10-11"
    wDetails 0 [wPR] h1⟩

/-- C10: the reported `maxTimeToMerge` and `maxLinesChanged` are always
non-negative, whatever the qualifying set's per-item values are, because
both `max` trackers start at `0`. -/
theorem report_max_trackers_nonneg (owner repo startDate endDate : String)
    (details : ℕ → PullRequestDetail) (since : ℤ) (prs : List PullRequestSummary) :
    0 ≤ (buildReport owner repo startDate endDate details since prs).maxTimeToMerge ∧
      0 ≤ (buildReport owner repo startDate endDate details since prs).maxLinesChanged := by
  rw [buildReport_eq]
  dsimp only
  constructor
  · calc (0 : ℚ) = roundTo 2 0 := (roundTo_zero 2).symm
      _ ≤ _ := roundTo_mono 2 (le_foldl_max _ 0)
  · exact le_foldl_max _ 0

/-- C1 counterexample: on a repository whose qualifying set is empty, the
report does not set the min fields or `deviationMinFromAverage` to 0 — the
`Number.MAX_VALUE` sentinel leaks through. -/
theorem empty_report_min_fields_ne_zero :
    (buildReport "SAP" "terraform-exporter-btp" "2025-10-04" "2025-10-11" wDetails 1
        []).minTimeToMerge ≠ 0 ∧
      (buildReport "SAP" "terraform-exporter-btp" "2025-10-04" "2025-10-11" wDetails 1
        []).minLinesChanged ≠ 0 ∧
      (buildReport "SAP" "terraform-exporter-btp" "2025-10-04" "2025-10-11" wDetails 1
        []).deviationMinFromAverage ≠ 0 := by
  rw [buildReport_eq]
  dsimp only
  have hfw : filterWindow 1 [] = [] := rfl
  rw [hfw]
  simp only [List.map_nil, List.length_nil, List.foldl_nil, List.sum_nil, gt_iff_lt,
    lt_self_iff_false, if_false]
  refine ⟨?_, ?_, ?_⟩
  · rw [roundTo_MAXVALUE]
    norm_num [NumberMAXVALUE, NumberMAXVALUEZ]
  · norm_num [NumberMAXVALUEZ]
  · rw [zero_sub, roundTo_neg_MAXVALUE]
    norm_num [NumberMAXVALUE, NumberMAXVALUEZ]

/-- C1 as amended: on an empty qualifying set the averages, the max fields
and `deviationMaxFromAverage` are 0, but the min fields keep the
`Number.MAX_VALUE` sentinel and `deviationMinFromAverage` is
`-Number.MAX_VALUE`. -/
theorem empty_report_fields (owner repo startDate endDate : String)
    (details : ℕ → PullRequestDetail) (since : ℤ) (prs : List PullRequestSummary)
    (h : filterWindow since prs = []) :
    (buildReport owner repo startDate endDate details since prs).averageTimeToMerge = 0 ∧
      (buildReport owner repo startDate endDate details since prs).maxTimeToMerge = 0 ∧
      (buildReport owner repo startDate endDate details since prs).averageLinesChanged = 0 ∧
      (buildReport owner repo startDate endDate details since prs).maxLinesChanged = 0 ∧
      (buildReport owner repo startDate endDate details since prs).deviationMaxFromAverage = 0 ∧
      (buildReport owner repo startDate endDate details since prs).minTimeToMerge =
        NumberMAXVALUE ∧
      (buildReport owner repo startDate endDate details since prs).minLinesChanged =
        NumberMAXVALUEZ ∧
      (buildReport owner repo startDate endDate details since prs).deviationMinFromAverage =
        -NumberMAXVALUE := by
  rw [buildReport_eq]
  dsimp only
  rw [h]
  simp [roundTo_zero, roundTo_MAXVALUE, roundTo_neg_MAXVALUE]

/-- Witness for `empty_report_fields` on a concrete empty fetch. -/
theorem empty_report_fields_witness :
    filterWindow 1 ([] : List PullRequestSummary) = [] ∧
      ((buildReport "SAP" "terraform-provider-btp" "2025-10-04" "2025-10-11" wDetails 1
            []).averageTimeToMerge = 0 ∧
        (buildReport "SAP" "terraform-provider-btp" "2025-10-04" "2025-10-11" wDetails 1
            []).maxTimeToMerge = 0 ∧
        (buildReport "SAP" "terraform-provider-btp" "2025-10-04" "2025-10-11" wDetails 1
            []).averageLinesChanged = 0 ∧
        (buildReport "SAP" "terraform-provider-btp" "2025-10-04" "2025-10-11" wDetails 1
            []).maxLinesChanged = 0 ∧
        (buildReport "SAP" "terraform-provider-btp" "2025-10-04" "2025-10-11" wDetails 1
            []).deviationMaxFromAverage = 0 ∧
        (buildReport "SAP" "terraform-provider-btp" "2025-10-04" "2025-10-11" wDetails 1
            []).minTimeToMerge = NumberMAXVALUE ∧
        (buildReport "SAP" "terraform-provider-btp" "2025-10-04" "2025-10-11" wDetails 1
            []).minLinesChanged = NumberMAXVALUEZ ∧
        (buildReport "SAP" "terraform-provider-btp" "2025-10-04" "2025-10-11" wDetails 1
            []).deviationMinFromAverage = -NumberMAXVALUE) :=
  ⟨rfl, empty_report_fields "SAP" "terraform-provider-btp" "2025-10-04" "2025-10-11"
    wDetails 1 [] rfl⟩

/-- Closed form of the pagination loop over a well-formed page sequence
(every page before the last continues, the last does not). -/
theorem fetchPages_closed (last : Page) (hlast : last.pageInfo.hasNextPage = false)
    (front : List Page) :
    ∀ cursor : Option String, (∀ p ∈ front, p.pageInfo.hasNextPage = true) →
      fetchPages cursor (front ++ [last]) =
        ((front ++ [last]).flatMap (fun p => p.edges.map Edge.node),
          cursor :: front.map (fun p => p.pageInfo.endCursor)) := by
  induction front with
  | nil =>
    intro cursor _
    simp [fetchPages, hlast]
  | cons p ps ih =>
    intro cursor hf
    have hp : p.pageInfo.hasNextPage = true := hf p (List.mem_cons_self p ps)
    simp only [List.cons_append, fetchPages, hp, if_true, List.append_eq]
    rw [ih p.pageInfo.endCursor (fun q hq => hf q (List.mem_cons_of_mem p hq))]
    simp

/-- C2: over any well-formed page sequence served by a fake endpoint, the
fetch loop concatenates all pages' edge nodes in server order (so its
length is the sum of per-page edge counts), sends each request with the
prior page's `endCursor` (the first with `null`), and issues exactly one
request per page — halting exactly at the page that reports
`hasNextPage = false`. -/
theorem fetchAllPullRequests_spec (front : List Page) (last : Page)
    (hfront : ∀ p ∈ front, p.pageInfo.hasNextPage = true)
    (hlast : last.pageInfo.hasNextPage = false) :
    (fetchAllPullRequests (front ++ [last])).1 =
        (front ++ [last]).flatMap (fun p => p.edges.map Edge.node) ∧
      (fetchAllPullRequests (front ++ [last])).1.length =
        ((front ++ [last]).map (fun p => p.edges.length)).sum ∧
      (fetchAllPullRequests (front ++ [last])).2 =
        none :: front.map (fun p => p.pageInfo.endCursor) := by
  have h := fetchPages_closed last hlast front none hfront
  rw [fetchAllPullRequests, h]
  refine ⟨rfl, ?_, rfl⟩
  have hfun : (List.length ∘ fun p : Page => List.map Edge.node p.edges) =
      fun p : Page => p.edges.length := by
    funext p
    simp
  simp [List.length_flatMap, hfun]

/-- A first page for concrete pagination runs: one edge, continues with
cursor `"c1"`. -/
def wPage1 : Page :=
  { edges := [{ node := wPR }]
    pageInfo := { hasNextPage := true, endCursor := some "c1" } }

/-- A final page for concrete pagination runs: no edges, no next page. -/
def wPage2 : Page :=
  { edges := []
    pageInfo := { hasNextPage := false, endCursor := none } }

/-- Witness for `fetchAllPullRequests_spec` on a concrete two-page run. -/
theorem fetchAllPullRequests_spec_witness :
    (∀ p ∈ [wPage1], p.pageInfo.hasNextPage = true) ∧
      wPage2.pageInfo.hasNextPage = false ∧
      ((fetchAllPullRequests ([wPage1] ++ [wPage2])).1 =
          ([wPage1] ++ [wPage2]).flatMap (fun p => p.edges.map Edge.node) ∧
        (fetchAllPullRequests ([wPage1] ++ [wPage2])).1.length =
          (([wPage1] ++ [wPage2]).map (fun p => p.edges.length)).sum ∧
        (fetchAllPullRequests ([wPage1] ++ [wPage2])).2 =
          none :: [wPage1].map (fun p => p.pageInfo.endCursor)) := by
  have h1 : ∀ p ∈ [wPage1], p.pageInfo.hasNextPage = true := by
    intro p hp
    simp only [List.mem_singleton] at hp
    subst hp
    rfl
  have h2 : wPage2.pageInfo.hasNextPage = false := rfl
  exact ⟨h1, h2, fetchAllPullRequests_spec [wPage1] wPage2 h1 h2⟩

/-- C5: the window filter keeps exactly the pull requests whose `mergedAt`
is at or after the window start; ones merged earlier are excluded, and ones
with a `null` `mergedAt` (which JavaScript coerces to the epoch) are
excluded rather than crashing, for any positive window start. -/
theorem filterWindow_spec (since : ℤ) (prs : List PullRequestSummary) (hsince : 0 < since) :
    (∀ pr ∈ prs, ∀ t : ℤ, pr.mergedAt = some t →
        (pr ∈ filterWindow since prs ↔ since ≤ t)) ∧
      (∀ pr ∈ prs, ∀ t : ℤ, pr.mergedAt = some t → t < since →
        pr ∉ filterWindow since prs) ∧
      (∀ pr ∈ prs, pr.mergedAt = none → pr ∉ filterWindow since prs) := by
  refine ⟨?_, ?_, ?_⟩
  · intro pr hpr t ht
    simp [filterWindow, List.mem_filter, hpr, jsDateMs, ht]
  · intro pr _ t ht hlt hmem
    rw [filterWindow, List.mem_filter] at hmem
    simp only [jsDateMs, ht, decide_eq_true_eq] at hmem
    omega
  · intro pr _ hnone hmem
    rw [filterWindow, List.mem_filter] at hmem
    simp only [jsDateMs, hnone, decide_eq_true_eq] at hmem
    omega

/-- A never-merged pull request (`mergedAt = null`) for concrete runs. -/
def wNullPR : PullRequestSummary :=
  { number := 2, title := "pr-2", createdAt := 0, mergedAt := none, state := "MERGED" }

/-- Witness for `filterWindow_spec` with a merged and a null entry. -/
theorem filterWindow_spec_witness :
    (0 : ℤ) < 1 ∧
      ((∀ pr ∈ [wPR, wNullPR], ∀ t : ℤ, pr.mergedAt = some t →
          (pr ∈ filterWindow 1 [wPR, wNullPR] ↔ 1 ≤ t)) ∧
        (∀ pr ∈ [wPR, wNullPR], ∀ t : ℤ, pr.mergedAt = some t → t < 1 →
          pr ∉ filterWindow 1 [wPR, wNullPR]) ∧
        (∀ pr ∈ [wPR, wNullPR], pr.mergedAt = none →
          pr ∉ filterWindow 1 [wPR, wNullPR])) :=
  ⟨by norm_num, filterWindow_spec 1 [wPR, wNullPR] (by norm_num)⟩

/-- The report under `buildReport` carries the `owner/repo` name. -/
theorem buildReport_Repository (owner repo startDate endDate : String)
    (details : ℕ → PullRequestDetail) (since : ℤ) (prs : List PullRequestSummary) :
    (buildReport owner repo startDate endDate details since prs).Repository =
      owner ++ "/" ++ repo := by
  rw [buildReport_eq]

/-- Every repository whose fetch succeeds contributes its report to the
results of the loop. -/
theorem mem_processRepositories (fetch : Repo → Except String (List PullRequestSummary))
    (details : Repo → ℕ → PullRequestDetail) (since : ℤ) (startDate endDate : String)
    {r : Repo} {prs : List PullRequestSummary} (repos : List Repo) (hr : r ∈ repos)
    (hok : fetch r = Except.ok prs) :
    buildReport r.owner r.repo startDate endDate (details r) since prs ∈
      processRepositories fetch details since startDate endDate repos := by
  induction repos with
  | nil => cases hr
  | cons x xs ih =>
    rcases List.mem_cons.mp hr with h | h
    · subst h
      simp [processRepositories, hok]
    · cases hfx : fetch x with
      | ok p =>
        simp only [processRepositories, hfx]
        exact List.mem_cons_of_mem _ (ih h)
      | error e =>
        simp only [processRepositories, hfx]
        exact ih h

/-- C6: a repository whose fetch raises an error is skipped — the results
of the loop are exactly the results over the remaining repositories — and
every later repository whose fetch succeeds still has its report in the
final results collection. -/
theorem failed_repo_skipped (fetch : Repo → Except String (List PullRequestSummary))
    (details : Repo → ℕ → PullRequestDetail) (since : ℤ) (startDate endDate : String)
    (r : Repo) (rest : List Repo) (e : String) (hfail : fetch r = Except.error e) :
    processRepositories fetch details since startDate endDate (r :: rest) =
        processRepositories fetch details since startDate endDate rest ∧
      ∀ r' ∈ rest, ∀ prs : List PullRequestSummary, fetch r' = Except.ok prs →
        buildReport r'.owner r'.repo startDate endDate (details r') since prs ∈
          processRepositories fetch details since startDate endDate (r :: rest) := by
  constructor
  · simp [processRepositories, hfail]
  · intro r' hr' prs hok
    exact mem_processRepositories fetch details since startDate endDate (r :: rest)
      (List.mem_cons_of_mem r hr') hok

/-- A fetch stub for concrete runs: the first hardcoded repository fails
with a transport error, every other repository returns one pull request. -/
def wFetch : Repo → Except String (List PullRequestSummary) := fun r =>
  if r.repo = "terraform-exporter-btp" then Except.error "transport" else Except.ok [wPR]

/-- A per-repository detail fetcher stub for concrete runs. -/
def wDetailsR : Repo → ℕ → PullRequestDetail := fun _ => wDetails

/-- Witness for `failed_repo_skipped` on the hardcoded repository list. -/
theorem failed_repo_skipped_witness :
    wFetch { owner := "SAP", repo := "terraform-exporter-btp" } =
        Except.error "transport" ∧
      (processRepositories wFetch wDetailsR 0 "2025-10-04" "2025-10-11"
          ({ owner := "SAP", repo := "terraform-exporter-btp" } ::
            [{ owner := "SAP", repo := "terraform-provider-btp" }]) =
        processRepositories wFetch wDetailsR 0 "2025-10-04" "2025-10-11"
          [{ owner := "SAP", repo := "terraform-provider-btp" }] ∧
      ∀ r' ∈ [({ owner := "SAP", repo := "terraform-provider-btp" } : Repo)],
        ∀ prs : List PullRequestSummary, wFetch r' = Except.ok prs →
          buildReport r'.owner r'.repo "2025-10-04" "2025-10-11" (wDetailsR r') 0 prs ∈
            processRepositories wFetch wDetailsR 0 "2025-10-04" "2025-10-11"
              ({ owner := "SAP", repo := "terraform-exporter-btp" } ::
                [{ owner := "SAP", repo := "terraform-provider-btp" }])) := by
  have hfail : wFetch { owner := "SAP", repo := "terraform-exporter-btp" } =
      Except.error "transport" := rfl
  exact ⟨hfail, failed_repo_skipped wFetch wDetailsR 0 "2025-10-04" "2025-10-11"
    { owner := "SAP", repo := "terraform-exporter-btp" }
    [{ owner := "SAP", repo := "terraform-provider-btp" }] "transport" hfail⟩

/-- C9: the results collection lists, in order, exactly the repositories of
the configured list whose fetch did not fail: mapping each report to its
repository name gives the name sequence of the non-failing subsequence of
the input list. -/
theorem results_preserve_order (fetch : Repo → Except String (List PullRequestSummary))
    (details : Repo → ℕ → PullRequestDetail) (since : ℤ) (startDate endDate : String)
    (repos : List Repo) :
    (processRepositories fetch details since startDate endDate repos).map
        RepositoryReport.Repository =
      (repos.filter (fun r => fetchOk (fetch r))).map (fun r => r.owner ++ "/" ++ r.repo) := by
  induction repos with
  | nil => rfl
  | cons r rest ih =>
    cases hf : fetch r with
    | ok prs =>
      simp only [processRepositories, hf, List.map_cons, List.filter_cons, fetchOk,
        if_true, buildReport_Repository, ih]
    | error e =>
      simp only [processRepositories, hf, List.filter_cons, fetchOk, ih]
      simp

/-- The report's `PRs` array has one entry per qualifying pull request. -/
theorem buildReport_PRs_length (owner repo startDate endDate : String)
    (details : ℕ → PullRequestDetail) (since : ℤ) (prs : List PullRequestSummary) :
    (buildReport owner repo startDate endDate details since prs).PRs.length =
      (filterWindow since prs).length := by
  rw [buildReport_eq]
  simp

/-- C7: CSV output is the fixed joined header row followed by exactly one
comma-joined data row per report (so `results.length + 1` lines in all);
for a run over a single repository whose fetch succeeds with 3 qualifying
pull requests it is exactly 2 lines, and the `number_of_prs` cell (index 3)
of the data row is `"3"`. -/
theorem csv_output_shape (render : ℚ → String)
    (fetch : Repo → Except String (List PullRequestSummary))
    (details : Repo → ℕ → PullRequestDetail) (since : ℤ) (startDate endDate : String)
    (r : Repo) (prs : List PullRequestSummary)
    (hok : fetch r = Except.ok prs) (h3 : (filterWindow since prs).length = 3) :
    (∀ results : List RepositoryReport,
        csvLines render results =
          String.intercalate "," csvHeaders :: results.map (csvRow render) ∧
        (csvLines render results).length = results.length + 1) ∧
      String.intercalate "," csvHeaders =
        "repository_name,starttime,endtime,number_of_prs,average_time_to_merge,min_time_to_merge,max_time_to_merge,average_lines_changed,min_lines_changed,max_lines_Changed" ∧
      (csvLines render
        (processRepositories fetch details since startDate endDate [r])).length = 2 ∧
      (csvCells render
        (buildReport r.owner r.repo startDate endDate (details r) since prs))[3]? =
        some "3" := by
  refine ⟨fun results => ⟨rfl, by simp [csvLines]⟩, by rfl, ?_, ?_⟩
  · simp [csvLines, processRepositories, hok]
  · simp [csvCells, buildReport_PRs_length, h3]
    rfl

/-- Three merged pull requests for the concrete CSV run. -/
def wPrs3 : List PullRequestSummary :=
  [wPR,
   { number := 2, title := "pr-2", createdAt := 0, mergedAt := some 6, state := "MERGED" },
   { number := 3, title := "pr-3", createdAt := 0, mergedAt := some 7, state := "MERGED" }]

/-- A fetch stub that always succeeds with the three pull requests. -/
def wFetchOk : Repo → Except String (List PullRequestSummary) := fun _ => Except.ok wPrs3

/-- A fixed number renderer for the concrete CSV run. -/
def wRender : ℚ → String := fun _ => "0"

/-- Witness for `csv_output_shape` on a single-repository run with three
qualifying pull requests. -/
theorem csv_output_shape_witness :
    wFetchOk { owner := "SAP", repo := "terraform-exporter-btp" } = Except.ok wPrs3 ∧
      (filterWindow 0 wPrs3).length = 3 ∧
      ((∀ results : List RepositoryReport,
          csvLines wRender results =
            String.intercalate "," csvHeaders :: results.map (csvRow wRender) ∧
          (csvLines wRender results).length = results.length + 1) ∧
        String.intercalate "," csvHeaders =
          "repository_name,starttime,endtime,number_of_prs,average_time_to_merge,min_time_to_merge,max_time_to_merge,average_lines_changed,min_lines_changed,max_lines_Changed" ∧
        (csvLines wRender
          (processRepositories wFetchOk wDetailsR 0 "2025-10-04" "2025-10-11"
            [{ owner := "SAP", repo := "terraform-exporter-btp" }])).length = 2 ∧
        (csvCells wRender
          (buildReport "SAP" "terraform-exporter-btp" "2025-10-04" "2025-10-11"
            (wDetailsR { owner := "SAP", repo := "terraform-exporter-btp" }) 0 wPrs3))[3]? =
          some "3") := by
  have hok : wFetchOk { owner := "SAP", repo := "terraform-exporter-btp" } =
      Except.ok wPrs3 := rfl
  have h3 : (filterWindow 0 wPrs3).length = 3 := by
    simp [filterWindow, wPrs3, wPR, jsDateMs]
  exact ⟨hok, h3, csv_output_shape wRender wFetchOk wDetailsR 0 "2025-10-04" "2025-10-11"
    { owner := "SAP", repo := "terraform-exporter-btp" } wPrs3 hok h3⟩

/-- Fixed "now" for the worked example: epoch millisecond 1000000000000. -/
def exampleNow : ℤ := 1000000000000

/-- Window start of the worked example: 7 days (604800000 ms) before the
fixed "now". -/
def exampleSince : ℤ := exampleNow - 7 * 24 * 60 * 60 * 1000

/-- Example pull request merged 120 minutes (7200000 ms) after creation,
inside the window. -/
def examplePR1 : PullRequestSummary :=
  { number := 1, title := "feat-a", createdAt := 999500000000,
    mergedAt := some 999507200000, state := "MERGED" }

/-- Example pull request merged 180 minutes (10800000 ms) after creation,
inside the window. -/
def examplePR2 : PullRequestSummary :=
  { number := 2, title := "feat-b", createdAt := 999600000000,
    mergedAt := some 999610800000, state := "MERGED" }

/-- Example details: pull request 1 changes 20+30 = 50 lines, pull request
2 changes 100+50 = 150 lines. -/
def exampleDetails : ℕ → PullRequestDetail := fun n =>
  if n = 1 then { additions := 20, deletions := 30 }
  else { additions := 100, deletions := 50 }

/-- C8: on the fixed example (last-7-days window, two qualifying pull
requests with 120 and 180 minutes to merge and 50 and 150 lines changed)
the aggregator reports average/min/max time 150/120/180, both deviations
30, and average/min/max lines 100/50/150. -/
theorem example_report :
    (buildReport "SAP" "terraform-exporter-btp" "2001-09-02" "2001-09-09" exampleDetails
        exampleSince [examplePR1, examplePR2]).averageTimeToMerge = 150 ∧
      (buildReport "SAP" "terraform-exporter-btp" "2001-09-02" "2001-09-09" exampleDetails
        exampleSince [examplePR1, examplePR2]).minTimeToMerge = 120 ∧
      (buildReport "SAP" "terraform-exporter-btp" "2001-09-02" "2001-09-09" exampleDetails
        exampleSince [examplePR1, examplePR2]).maxTimeToMerge = 180 ∧
      (buildReport "SAP" "terraform-exporter-btp" "2001-09-02" "2001-09-09" exampleDetails
        exampleSince [examplePR1, examplePR2]).deviationMinFromAverage = 30 ∧
      (buildReport "SAP" "terraform-exporter-btp" "2001-09-02" "2001-09-09" exampleDetails
        exampleSince [examplePR1, examplePR2]).deviationMaxFromAverage = 30 ∧
      (buildReport "SAP" "terraform-exporter-btp" "2001-09-02" "2001-09-09" exampleDetails
        exampleSince [examplePR1, examplePR2]).averageLinesChanged = 100 ∧
      (buildReport "SAP" "terraform-exporter-btp" "2001-09-02" "2001-09-09" exampleDetails
        exampleSince [examplePR1, examplePR2]).minLinesChanged = 50 ∧
      (buildReport "SAP" "terraform-exporter-btp" "2001-09-02" "2001-09-09" exampleDetails
        exampleSince [examplePR1, examplePR2]).maxLinesChanged = 150 := by
  rw [buildReport_eq]
  dsimp only
  have hfw : filterWindow exampleSince [examplePR1, examplePR2] = [examplePR1, examplePR2] := by
    simp [filterWindow, examplePR1, examplePR2, exampleSince, exampleNow, jsDateMs]
  rw [hfw]
  have ht1 : timeOf examplePR1 = 120 := by
    norm_num [timeOf, calculateTimeDifferenceInMinutes, jsDateMs, examplePR1]
  have ht2 : timeOf examplePR2 = 180 := by
    norm_num [timeOf, calculateTimeDifferenceInMinutes, jsDateMs, examplePR2]
  have hl1 : linesOf exampleDetails examplePR1 = 50 := by
    norm_num [linesOf, exampleDetails, examplePR1]
  have hl2 : linesOf exampleDetails examplePR2 = 150 := by
    norm_num [linesOf, exampleDetails, examplePR2]
  simp only [List.map_cons, List.map_nil, ht1, ht2, hl1, hl2, List.sum_cons, List.sum_nil,
    List.foldl_cons, List.foldl_nil, List.length_cons, List.length_nil]
  norm_num [NumberMAXVALUE, NumberMAXVALUEZ, min_def, max_def, roundTo, round_eq]
